import Mathlib

/-!
Verification development for `crsmain_unsafe.rs`, the Rust 2D-array access
benchmark. The program resolves up to three positional command-line
integers (repeat count, row count, column count), allocates a
`rowCount × columnCount` pair of `f32` arrays, seeds the input array,
invokes the kernel `csub` repeatedly, and verifies the result once.

Modelling conventions:
* `f32` elements are modelled as exact natural numbers. Every value the
  program manipulates is a nonnegative integer produced by integer
  arithmetic and converted to `f32`; under the tested magnitude ranges
  these conversions and the single addition per element are exact, so the
  natural-number model coincides with the floating-point computation.
* A 2D array (`Vec<Vec<f32>>`) is a `List (List Nat)`.
* `usize` values are `Nat`; `usize` subtraction, which panics on
  underflow, is additionally modelled by a checked variant `usizeSub?`.
* A parsed command-line argument (`args[i].parse::<usize>()`) is an
  `Option Nat`: `some n` on success, `none` on parse failure. The whole
  argv (index 0 being the program name, which is never parsed) is a
  `List (Option Nat)`.
* `println!` output is collected as a `List String`.
-/

namespace Crs

/-- Resolved configuration: repeat count `nrpt`, row count `ny`, column
count `nx`, as in the `main` of `crsmain_unsafe.rs`. -/
structure Config where
  nrpt : Nat
  ny : Nat
  nx : Nat
deriving DecidableEq

/-- One `match args[k].parse::<usize>()` arm: on `Ok(number)` the field
becomes `number` with no output; on `Err(_)` the field keeps its default
`d` and the diagnostic `msg ++ toString d` is printed. -/
def parseSlot (v : Option Nat) (d : Nat) (msg : String) : Nat × List String :=
  match v with
  | some n => (n, [])
  | none => (d, [msg ++ toString d])

/-- Argument resolution, mirroring lines 106–127 of `crsmain_unsafe.rs`:
defaults `nrpt = 100000`, `ny = 10`, `nx = 2000`; nested
`if args.len() > k` checks; each present argument overrides its default on
parse success and prints a diagnostic naming the field and the retained
default on parse failure. Returns the configuration and the printed
diagnostics in order. -/
def resolveArgs (args : List (Option Nat)) : Config × List String :=
  if args.length > 1 then
    let p1 := parseSlot (args.getD 1 none) 100000 "Repeats invalid, using "
    if args.length > 2 then
      let p2 := parseSlot (args.getD 2 none) 10 "Rows invalid, using "
      if args.length > 3 then
        let p3 := parseSlot (args.getD 3 none) 2000 "Columns invalid, using "
        (⟨p1.1, p2.1, p3.1⟩, p1.2 ++ p2.2 ++ p3.2)
      else
        (⟨p1.1, p2.1, 2000⟩, p1.2 ++ p2.2)
    else
      (⟨p1.1, 10, 2000⟩, p1.2)
  else
    (⟨100000, 10, 2000⟩, [])

/-- The all-zero `ny × nx` array: `vec![vec![0.0f32; nx]; ny]`
(lines 133–134). -/
def zeros (nx ny : Nat) : List (List Nat) :=
  List.replicate ny (List.replicate nx 0)

/-- Unchecked 2D read `a[iy][ix]` (out-of-range reads default to 0; all
reads the program performs are in range). -/
def get2 (a : List (List Nat)) (iy ix : Nat) : Nat :=
  (a.getD iy []).getD ix 0

/-- Checked 2D read: `none` models the bounds-check panic of
`a[iy][ix]`. -/
def get2? (a : List (List Nat)) (iy ix : Nat) : Option Nat :=
  a[iy]?.bind fun row => row[ix]?

/-- Unchecked 2D write `a[iy][ix] = v` (out-of-range writes are dropped;
all writes the program performs are in range). -/
def writeCell (a : List (List Nat)) (iy ix v : Nat) : List (List Nat) :=
  a.set iy ((a.getD iy []).set ix v)

/-- Checked 2D write: `none` models the bounds-check panic of
`a[iy][ix] = v`. -/
def set2? (a : List (List Nat)) (iy ix v : Nat) : Option (List (List Nat)) :=
  match a[iy]? with
  | none => none
  | some row => if ix < row.length then some (a.set iy (row.set ix v)) else none

/-- Row-major double loop writing `f iy ix` into every cell
`(iy, ix) ∈ [0, ny) × [0, nx)` of `a`: the shape shared by the
initialization loop (lines 141–145) and the kernel loop. -/
def gridWrite (f : Nat → Nat → Nat) (ny nx : Nat) (a : List (List Nat)) :
    List (List Nat) :=
  (List.range ny).foldl
    (fun acc iy =>
      (List.range nx).foldl (fun acc2 ix => writeCell acc2 iy ix (f iy ix)) acc)
    a

/-- The `ny × nx` array whose cell `(iy, ix)` holds `f iy ix`; closed form
of `gridWrite` on a well-shaped array. -/
def gridOf (f : Nat → Nat → Nat) (ny nx : Nat) : List (List Nat) :=
  (List.range ny).map fun iy => (List.range nx).map fun ix => f iy ix

/-- The array `a` is an `ny × nx` grid. -/
def Shape (a : List (List Nat)) (ny nx : Nat) : Prop :=
  a.length = ny ∧ ∀ row ∈ a, row.length = nx

/-- Seed value of the input array: `(nx - ix + ny - iy) as f32`
(line 143), with Rust's left-associated `usize` arithmetic
`((nx - ix) + ny) - iy`. -/
def seedFun (nx ny iy ix : Nat) : Nat :=
  nx - ix + ny - iy

/-- Checked `usize` subtraction: `none` models the underflow panic. -/
def usizeSub? (a b : Nat) : Option Nat :=
  if b ≤ a then some (a - b) else none

/-- Checked evaluation of the seed expression `nx - ix + ny - iy` in
`usize` arithmetic: left-associated, each subtraction checked for
underflow. -/
def seedVal? (nx ny iy ix : Nat) : Option Nat :=
  (usizeSub? nx ix).bind fun t1 => usizeSub? (t1 + ny) iy

/-- Input-array initialization (lines 141–145): starting from the zero
array, set `in_array[iy][ix] = (nx - ix + ny - iy) as f32` for every
`iy ∈ [0, ny)`, `ix ∈ [0, nx)`, in row-major order. -/
def initInput (nx ny : Nat) : List (List Nat) :=
  gridWrite (seedFun nx ny) ny nx (zeros nx ny)

/-- Checked initialization: same loop with checked subtraction and
checked writes; `none` models a panic during initialization. -/
def initInput? (nx ny : Nat) : Option (List (List Nat)) :=
  (List.range ny).foldlM
    (fun acc iy =>
      (List.range nx).foldlM
        (fun acc2 ix => (seedVal? nx ny iy ix).bind fun v => set2? acc2 iy ix v)
        acc)
    (zeros nx ny)

/-- Modelled from the spec: the kernel `csub` lives in `crssub_unsafe.rs`,
which is not among the repository sources (only its caller
`crsmain_unsafe.rs` is). Section 4.3 of the spec specifies it: given
`input`, `nx`, `ny` and a mutable `output`, write
`output[iy][ix] = input[iy][ix] + (ix + iy)` — `(ix + iy)` computed in
integer arithmetic, then converted to the element type — for every valid
`(ix, iy)`, iterating row-major (outer over rows, inner over columns
within a row), touching nothing outside the `ny × nx` bounds. -/
def csub (input : List (List Nat)) (nx ny : Nat) (out : List (List Nat)) :
    List (List Nat) :=
  gridWrite (fun iy ix => get2 input iy ix + (ix + iy)) ny nx out

/-- Closed form of the kernel's result on a well-shaped output array. -/
def csubPure (input : List (List Nat)) (nx ny : Nat) : List (List Nat) :=
  gridOf (fun iy ix => get2 input iy ix + (ix + iy)) ny nx

/-- The repeat loop `for _irpt in 1..=nrpt { csub(...) }`
(lines 149–151): `n` sequential kernel calls starting from `out0`. -/
def repeatLoop (input : List (List Nat)) (nx ny : Nat)
    (out0 : List (List Nat)) : Nat → List (List Nat)
  | 0 => out0
  | n + 1 => csub input nx ny (repeatLoop input nx ny out0 n)

/-- One comparison of the check loop (line 158): `some (ix, iy, out, in)`
when `out_array[iy][ix] != in_array[iy][ix] + (ix + iy) as f32`. -/
def checkCell (inA outA : List (List Nat)) (iy ix : Nat) :
    Option (Nat × Nat × Nat × Nat) :=
  if get2 outA iy ix ≠ get2 inA iy ix + (ix + iy) then
    some (ix, iy, get2 outA iy ix, get2 inA iy ix)
  else none

/-- The check loop (lines 155–164): row-major scan, stopping at the first
mismatching cell (the labelled `break 'check_loop`); `none` when every
cell matches. -/
def findMismatch (inA outA : List (List Nat)) (nx ny : Nat) :
    Option (Nat × Nat × Nat × Nat) :=
  (List.range ny).findSome? fun iy =>
    (List.range nx).findSome? fun ix => checkCell inA outA iy ix

/-- The diagnostic `println! ("Error {} {} {} {}", ix, iy, out, in)`
(lines 159–160). -/
def errorLine (ix iy o i : Nat) : String :=
  "Error " ++ toString ix ++ " " ++ toString iy ++ " " ++ toString o ++
    " " ++ toString i

/-- Lines printed by the check loop: one `Error` line at the first
mismatch, nothing otherwise. -/
def mismatchLines : Option (Nat × Nat × Nat × Nat) → List String
  | some (ix, iy, o, i) => [errorLine ix iy o i]
  | none => []

/-- Output of the verification pass. -/
def verifyOutput (inA outA : List (List Nat)) (nx ny : Nat) : List String :=
  mismatchLines (findMismatch inA outA nx ny)

/-- Row-major list of all cell indices `(iy, ix)` the check loop can
visit. -/
def cells (ny nx : Nat) : List (Nat × Nat) :=
  (List.range ny).flatMap fun iy => (List.range nx).map fun ix => (iy, ix)

/-- Checked check loop over an explicit list of cells: the outer `none`
models a bounds-check panic while reading `out_array[iy][ix]` or
`in_array[iy][ix]`; the inner option is the first mismatch, scanning
stopping there. -/
def scanCells? (inA outA : List (List Nat)) :
    List (Nat × Nat) → Option (Option (Nat × Nat × Nat × Nat))
  | [] => some none
  | c :: rest =>
    (get2? outA c.1 c.2).bind fun o =>
      (get2? inA c.1 c.2).bind fun i =>
        if o ≠ i + (c.2 + c.1) then some (some (c.2, c.1, o, i))
        else scanCells? inA outA rest

/-- Everything `main` leaves observable: the startup banner, the
argument-parsing diagnostics, the two arrays, and the check loop's
output. -/
structure RunResult where
  banner : String
  argMsgs : List String
  inArr : List (List Nat)
  outArr : List (List Nat)
  checkMsgs : List String
deriving DecidableEq

/-- The startup line `println!("Arrays have {} rows of {} columns,
repeats = {}", ny, nx, nrpt)` (line 128). -/
def banner (c : Config) : String :=
  "Arrays have " ++ toString c.ny ++ " rows of " ++ toString c.nx ++
    " columns, repeats = " ++ toString c.nrpt

/-- The output array after the whole repeat loop, starting from the
uninitialized (all-zero) output array. -/
def finalOut (c : Config) : List (List Nat) :=
  repeatLoop (initInput c.nx c.ny) c.nx c.ny (zeros c.nx c.ny) c.nrpt

/-- The whole of `main` (lines 98–166) as a function of the parsed
command-line arguments. -/
def runMain (args : List (Option Nat)) : RunResult :=
  { banner := banner (resolveArgs args).1
    argMsgs := (resolveArgs args).2
    inArr := initInput (resolveArgs args).1.nx (resolveArgs args).1.ny
    outArr := finalOut (resolveArgs args).1
    checkMsgs :=
      verifyOutput (initInput (resolveArgs args).1.nx (resolveArgs args).1.ny)
        (finalOut (resolveArgs args).1) (resolveArgs args).1.nx
        (resolveArgs args).1.ny }

/-- Checked `main`: initialization uses checked `usize` subtraction and
checked writes, the verification pass uses checked reads; `none` models
any panic (abnormal termination). -/
def runMain? (args : List (Option Nat)) : Option RunResult :=
  (initInput? (resolveArgs args).1.nx (resolveArgs args).1.ny).bind fun inA =>
    (scanCells? inA
        (repeatLoop inA (resolveArgs args).1.nx (resolveArgs args).1.ny
          (zeros (resolveArgs args).1.nx (resolveArgs args).1.ny)
          (resolveArgs args).1.nrpt)
        (cells (resolveArgs args).1.ny (resolveArgs args).1.nx)).map fun m =>
      { banner := banner (resolveArgs args).1
        argMsgs := (resolveArgs args).2
        inArr := inA
        outArr := repeatLoop inA (resolveArgs args).1.nx
          (resolveArgs args).1.ny
          (zeros (resolveArgs args).1.nx (resolveArgs args).1.ny)
          (resolveArgs args).1.nrpt
        checkMsgs := mismatchLines m }

/-- Process exit status of the modelled run: 0 on normal termination, 1
on a panic. Rust's `main` here returns `()`, so normal termination always
exits successfully. -/
def exitCode (args : List (Option Nat)) : Nat :=
  match runMain? args with
  | some _ => 0
  | none => 1

/-! ### Closed forms of the row-major write loops -/

theorem set_getD_self {α : Type} :
    ∀ (l : List α) (i : Nat) (d : α), i < l.length → l.set i (l.getD i d) = l
  | [], i, _, h => by simp at h
  | _ :: _, 0, _, _ => by simp
  | a :: l, i + 1, d, h => by
    simp only [List.getD_cons_succ, List.set_cons_succ]
    rw [set_getD_self l i d (by simpa using h)]

theorem foldl_writeCell_eq_set (g : Nat → Nat) (iy : Nat) :
    ∀ (n : Nat) (a : List (List Nat)), iy < a.length →
      (List.range n).foldl (fun acc ix => writeCell acc iy ix (g ix)) a
        = a.set iy
            ((List.range n).foldl (fun row ix => row.set ix (g ix))
              (a.getD iy []))
  | 0, a, h => by
    simpa using (set_getD_self a iy [] h).symm
  | n + 1, a, h => by
    have ih := foldl_writeCell_eq_set g iy n a h
    rw [List.range_succ, List.foldl_append, List.foldl_append]
    simp only [List.foldl_cons, List.foldl_nil]
    rw [ih]
    simp only [writeCell]
    rw [List.set_set]
    congr 2
    simp [List.getD_eq_getElem?_getD, List.getElem?_set_self h]

theorem foldl_set_range {α : Type} (f : Nat → α) :
    ∀ (n : Nat) (r : List α), n ≤ r.length →
      (List.range n).foldl (fun row ix => row.set ix (f ix)) r
        = (List.range n).map f ++ r.drop n
  | 0, r, _ => by simp
  | n + 1, r, h => by
    rw [List.range_succ, List.foldl_append]
    simp only [List.foldl_cons, List.foldl_nil]
    rw [foldl_set_range f n r (Nat.le_of_succ_le h)]
    rw [List.set_append_right _ _ (by simp)]
    simp only [List.length_map, List.length_range, Nat.sub_self]
    rw [List.drop_eq_getElem_cons (by omega), List.set_cons_zero]
    simp [List.range_succ]

theorem gridWrite_go (f : Nat → Nat → Nat) (nx : Nat) :
    ∀ (n : Nat) (a : List (List Nat)), n ≤ a.length →
      (∀ row ∈ a, row.length = nx) →
      (List.range n).foldl
        (fun acc iy =>
          (List.range nx).foldl (fun acc2 ix => writeCell acc2 iy ix (f iy ix))
            acc)
        a
        = ((List.range n).map fun iy => (List.range nx).map fun ix => f iy ix)
            ++ a.drop n
  | 0, a, _, _ => by simp
  | n + 1, a, h, hrows => by
    have hn : n < a.length := h
    rw [List.range_succ, List.foldl_append]
    simp only [List.foldl_cons, List.foldl_nil]
    rw [gridWrite_go f nx n a (Nat.le_of_succ_le h) hrows]
    have hBlen :
        (((List.range n).map fun iy =>
            (List.range nx).map fun ix => f iy ix) ++ a.drop n).length
          = a.length := by
      simp
      omega
    have hBn :
        (((List.range n).map fun iy =>
            (List.range nx).map fun ix => f iy ix) ++ a.drop n).getD n []
          = a.getD n [] := by
      simp only [List.getD_eq_getElem?_getD]
      rw [List.getElem?_append_right (by simp)]
      simp [List.getElem?_drop]
    rw [foldl_writeCell_eq_set (fun ix => f n ix) n nx _ (by omega)]
    rw [hBn]
    have hrowlen : nx ≤ (a.getD n []).length := by
      have hmem : a.getD n [] ∈ a := by
        simp only [List.getD_eq_getElem?_getD, List.getElem?_eq_getElem hn]
        exact List.getElem_mem hn
      rw [hrows _ hmem]
    rw [foldl_set_range (fun ix => f n ix) nx _ hrowlen]
    have hdropnil : (a.getD n []).drop nx = [] := by
      have hmem : a.getD n [] ∈ a := by
        simp only [List.getD_eq_getElem?_getD, List.getElem?_eq_getElem hn]
        exact List.getElem_mem hn
      exact List.drop_eq_nil_of_le (by rw [hrows _ hmem])
    rw [hdropnil]
    rw [List.set_append_right _ _ (by simp)]
    simp only [List.length_map, List.length_range, Nat.sub_self]
    rw [List.drop_eq_getElem_cons hn, List.set_cons_zero]
    simp [List.range_succ]

theorem shape_zeros (nx ny : Nat) : Shape (zeros nx ny) ny nx := by
  constructor
  · simp [zeros]
  · intro row hrow
    rcases List.eq_of_mem_replicate hrow with rfl
    simp

theorem shape_gridOf (f : Nat → Nat → Nat) (ny nx : Nat) :
    Shape (gridOf f ny nx) ny nx := by
  constructor
  · simp [gridOf]
  · intro row hrow
    simp only [gridOf, List.mem_map] at hrow
    obtain ⟨iy, _, rfl⟩ := hrow
    simp

theorem gridWrite_eq_gridOf (f : Nat → Nat → Nat) (ny nx : Nat)
    (a : List (List Nat)) (hs : Shape a ny nx) :
    gridWrite f ny nx a = gridOf f ny nx := by
  obtain ⟨h1, h2⟩ := hs
  unfold gridWrite
  rw [gridWrite_go f nx ny a (by omega) h2]
  rw [← h1, List.drop_length]
  simp [gridOf]

theorem get2_gridOf (f : Nat → Nat → Nat) {ny nx iy ix : Nat}
    (hy : iy < ny) (hx : ix < nx) :
    get2 (gridOf f ny nx) iy ix = f iy ix := by
  simp [get2, gridOf, List.getD_eq_getElem?_getD, List.getElem?_map,
    List.getElem?_range hy, List.getElem?_range hx]

theorem get2_zeros (nx ny iy ix : Nat) : get2 (zeros nx ny) iy ix = 0 := by
  unfold get2 zeros
  simp only [List.getD_eq_getElem?_getD, List.getElem?_replicate]
  by_cases hy : iy < ny
  · simp only [if_pos hy, Option.getD_some, List.getElem?_replicate]
    by_cases hx : ix < nx
    · simp [if_pos hx]
    · simp [if_neg hx]
  · simp [if_neg hy]

/-! ### Phase lemmas -/

theorem initInput_eq (nx ny : Nat) :
    initInput nx ny = gridOf (seedFun nx ny) ny nx :=
  gridWrite_eq_gridOf _ ny nx _ (shape_zeros nx ny)

theorem shape_initInput (nx ny : Nat) : Shape (initInput nx ny) ny nx := by
  rw [initInput_eq]
  exact shape_gridOf _ ny nx

theorem get2_initInput {nx ny iy ix : Nat} (hy : iy < ny) (hx : ix < nx) :
    get2 (initInput nx ny) iy ix = nx - ix + ny - iy := by
  rw [initInput_eq]
  exact get2_gridOf _ hy hx

theorem csub_eq_pure (input : List (List Nat)) {nx ny : Nat}
    {out : List (List Nat)} (hs : Shape out ny nx) :
    csub input nx ny out = csubPure input nx ny :=
  gridWrite_eq_gridOf _ ny nx _ hs

theorem shape_csubPure (input : List (List Nat)) (nx ny : Nat) :
    Shape (csubPure input nx ny) ny nx :=
  shape_gridOf _ ny nx

theorem get2_csubPure (input : List (List Nat)) {nx ny iy ix : Nat}
    (hy : iy < ny) (hx : ix < nx) :
    get2 (csubPure input nx ny) iy ix = get2 input iy ix + (ix + iy) :=
  get2_gridOf _ hy hx

theorem shape_repeatLoop (input : List (List Nat)) (nx ny : Nat)
    {out0 : List (List Nat)} (hs : Shape out0 ny nx) :
    ∀ n, Shape (repeatLoop input nx ny out0 n) ny nx
  | 0 => hs
  | n + 1 => by
    rw [repeatLoop, csub_eq_pure input (shape_repeatLoop input nx ny hs n)]
    exact shape_csubPure input nx ny

theorem repeatLoop_succ_eq (input : List (List Nat)) (nx ny : Nat)
    {out0 : List (List Nat)} (hs : Shape out0 ny nx) (n : Nat) :
    repeatLoop input nx ny out0 (n + 1) = csubPure input nx ny := by
  rw [repeatLoop]
  exact csub_eq_pure input (shape_repeatLoop input nx ny hs n)

theorem seedVal?_eq {nx ny iy ix : Nat} (hy : iy < ny) (hx : ix < nx) :
    seedVal? nx ny iy ix = some (seedFun nx ny iy ix) := by
  unfold seedVal? usizeSub?
  rw [if_pos (show ix ≤ nx by omega)]
  show usizeSub? (nx - ix + ny) iy = some (seedFun nx ny iy ix)
  unfold usizeSub?
  rw [if_pos (show iy ≤ nx - ix + ny by omega)]
  rfl

/-! ### Claims about the kernel, initialization and the seed arithmetic -/

/-- C1: after every call to the kernel `csub` with input array, column
count `nx`, row count `ny` and an `ny × nx` output array, every cell
`(iy, ix)` with `iy < ny`, `ix < nx` of the output equals
`input[iy][ix] + (ix + iy)`, the index sum computed in integer arithmetic
and added exactly (the natural-number model of the exact `f32` arithmetic
under the tested magnitude ranges). -/
theorem claim_C1 (input : List (List Nat)) (nx ny : Nat)
    (out : List (List Nat)) (hs : Shape out ny nx) :
    ∀ iy < ny, ∀ ix < nx,
      get2 (csub input nx ny out) iy ix = get2 input iy ix + (ix + iy) := by
  intro iy hy ix hx
  rw [csub_eq_pure input hs]
  exact get2_csubPure input hy hx

/-- Witness for C1 at `input = initInput 3 2`, `nx = 3`, `ny = 2`,
`out = zeros 3 2`, cell `(iy, ix) = (1, 2)`. -/
theorem claim_C1_witness :
    Shape (zeros 3 2) 2 3 ∧
      get2 (csub (initInput 3 2) 3 2 (zeros 3 2)) 1 2 =
        get2 (initInput 3 2) 1 2 + (2 + 1) :=
  ⟨by simp [Shape, zeros],
    claim_C1 (initInput 3 2) 3 2 (zeros 3 2) (by simp [Shape, zeros]) 1
      (by decide) 2 (by decide)⟩

/-- C2: initialization allocates input and output as `ny × nx` grids of
zeros, then sets `input[iy][ix] = (nx - ix) + (ny - iy)` (integer
arithmetic) for every in-range cell; for `ny = 2`, `nx = 3` the input is
`[[5,4,3],[4,3,2]]`, one kernel call produces `[[5,5,5],[5,5,5]]`, and
verification reports no mismatch. -/
theorem claim_C2 :
    (∀ nx ny iy ix, iy < ny → ix < nx →
        Shape (zeros nx ny) ny nx ∧
        get2 (zeros nx ny) iy ix = 0 ∧
        Shape (initInput nx ny) ny nx ∧
        get2 (initInput nx ny) iy ix = (nx - ix) + (ny - iy)) ∧
      initInput 3 2 = [[5, 4, 3], [4, 3, 2]] ∧
      csub (initInput 3 2) 3 2 (zeros 3 2) = [[5, 5, 5], [5, 5, 5]] ∧
      verifyOutput (initInput 3 2) (csub (initInput 3 2) 3 2 (zeros 3 2))
        3 2 = [] := by
  refine ⟨fun nx ny iy ix hy hx => ?_, by decide, by decide, by decide⟩
  refine ⟨shape_zeros nx ny, get2_zeros nx ny iy ix, shape_initInput nx ny, ?_⟩
  rw [get2_initInput hy hx]
  omega

/-- Witness for C2 at `nx = 3`, `ny = 2`, cell `(iy, ix) = (1, 2)`. -/
theorem claim_C2_witness :
    (1 : Nat) < 2 ∧ (2 : Nat) < 3 ∧
      get2 (initInput 3 2) 1 2 = (3 - 2) + (2 - 1) :=
  ⟨by decide, by decide, (claim_C2.1 3 2 1 2 (by decide) (by decide)).2.2.2⟩

/-- C6: the kernel is idempotent — a second call with the same unchanged
input on the output of the first call leaves the output unchanged — and
consequently the output after any `n ≥ 1` iterations of the repeat loop
equals the output after a single call. -/
theorem claim_C6 (input : List (List Nat)) (nx ny : Nat)
    (out : List (List Nat)) (hs : Shape out ny nx) :
    csub input nx ny (csub input nx ny out) = csub input nx ny out ∧
      ∀ n, 1 ≤ n → repeatLoop input nx ny out n = csub input nx ny out := by
  have h1 : csub input nx ny out = csubPure input nx ny := csub_eq_pure input hs
  constructor
  · rw [h1, csub_eq_pure input (shape_csubPure input nx ny)]
  · intro n hn
    obtain ⟨m, rfl⟩ : ∃ m, n = m + 1 := ⟨n - 1, by omega⟩
    rw [repeatLoop_succ_eq input nx ny hs m, h1]

/-- Witness for C6 at `input = initInput 3 2`, `nx = 3`, `ny = 2`,
`out = zeros 3 2`, `n = 2`. -/
theorem claim_C6_witness :
    Shape (zeros 3 2) 2 3 ∧ (1 : Nat) ≤ 2 ∧
      csub (initInput 3 2) 3 2 (csub (initInput 3 2) 3 2 (zeros 3 2)) =
          csub (initInput 3 2) 3 2 (zeros 3 2) ∧
        repeatLoop (initInput 3 2) 3 2 (zeros 3 2) 2 =
          csub (initInput 3 2) 3 2 (zeros 3 2) :=
  ⟨by simp [Shape, zeros], by decide,
    (claim_C6 (initInput 3 2) 3 2 (zeros 3 2) (by simp [Shape, zeros])).1,
    (claim_C6 (initInput 3 2) 3 2 (zeros 3 2) (by simp [Shape, zeros])).2 2
      (by decide)⟩

/-- C10: the seed expression `nx - ix + ny - iy`, evaluated left to right
in checked `usize` arithmetic, never underflows for `ix < nx`, `iy < ny`:
each partial result is at least 1, the final value is at least 2, and so
every input element is at least 2 whenever both dimensions are
nonzero. -/
theorem claim_C10 {nx ny iy ix : Nat} (hy : iy < ny) (hx : ix < nx) :
    usizeSub? nx ix = some (nx - ix) ∧
      1 ≤ nx - ix ∧
      1 ≤ nx - ix + ny ∧
      usizeSub? (nx - ix + ny) iy = some (nx - ix + ny - iy) ∧
      seedVal? nx ny iy ix = some (seedFun nx ny iy ix) ∧
      2 ≤ seedFun nx ny iy ix ∧
      2 ≤ get2 (initInput nx ny) iy ix := by
  refine ⟨?_, by omega, by omega, ?_, seedVal?_eq hy hx, ?_, ?_⟩
  · unfold usizeSub?
    rw [if_pos (by omega)]
  · unfold usizeSub?
    rw [if_pos (by omega)]
  · unfold seedFun
    omega
  · rw [get2_initInput hy hx]
    omega

/-- Witness for C10 at `nx = 2000`, `ny = 10`, `iy = 9`, `ix = 1999`. -/
theorem claim_C10_witness :
    (9 : Nat) < 10 ∧ (1999 : Nat) < 2000 ∧
      seedVal? 2000 10 9 1999 = some (seedFun 2000 10 9 1999) ∧
      2 ≤ seedFun 2000 10 9 1999 :=
  ⟨by decide, by decide,
    (claim_C10 (by decide) (by decide)).2.2.2.2.1,
    (claim_C10 (by decide) (by decide)).2.2.2.2.2.1⟩

/-! ### The verification scan -/

theorem checkCell_eq_none {inA outA : List (List Nat)} {iy ix : Nat} :
    checkCell inA outA iy ix = none ↔
      get2 outA iy ix = get2 inA iy ix + (ix + iy) := by
  unfold checkCell
  by_cases h : get2 outA iy ix = get2 inA iy ix + (ix + iy)
  · simp [h]
  · simp [h]

theorem checkCell_eq_some {inA outA : List (List Nat)} {iy ix : Nat}
    (hbad : get2 outA iy ix ≠ get2 inA iy ix + (ix + iy)) :
    checkCell inA outA iy ix = some (ix, iy, get2 outA iy ix, get2 inA iy ix) := by
  unfold checkCell
  rw [if_pos hbad]

theorem row_findSome_first (inA outA : List (List Nat)) (iy : Nat)
    {nx ix : Nat} (hx : ix < nx)
    (hbad : get2 outA iy ix ≠ get2 inA iy ix + (ix + iy))
    (hgood : ∀ ix' < ix, get2 outA iy ix' = get2 inA iy ix' + (ix' + iy)) :
    (List.range nx).findSome? (fun ix' => checkCell inA outA iy ix')
      = some (ix, iy, get2 outA iy ix, get2 inA iy ix) := by
  rw [show nx = ix + (nx - ix) from by omega, List.range_add,
    List.findSome?_append]
  have h1 : (List.range ix).findSome?
      (fun ix' => checkCell inA outA iy ix') = none := by
    rw [List.findSome?_eq_none_iff]
    intro ix' hmem
    rw [checkCell_eq_none]
    exact hgood ix' (List.mem_range.mp hmem)
  have h2 : ((List.range (nx - ix)).map (ix + ·)).findSome?
      (fun ix' => checkCell inA outA iy ix')
      = some (ix, iy, get2 outA iy ix, get2 inA iy ix) := by
    obtain ⟨k, hk⟩ : ∃ k, nx - ix = k + 1 := ⟨nx - ix - 1, by omega⟩
    rw [hk, List.range_succ_eq_map, List.map_cons]
    simp only [Nat.add_zero]
    simp only [List.findSome?_cons, checkCell_eq_some hbad]
  rw [h1, h2]
  rfl

theorem findMismatch_none {inA outA : List (List Nat)} {nx ny : Nat}
    (hgood : ∀ iy < ny, ∀ ix < nx,
      get2 outA iy ix = get2 inA iy ix + (ix + iy)) :
    findMismatch inA outA nx ny = none := by
  unfold findMismatch
  rw [List.findSome?_eq_none_iff]
  intro iy hy
  rw [List.findSome?_eq_none_iff]
  intro ix hx
  rw [checkCell_eq_none]
  exact hgood iy (List.mem_range.mp hy) ix (List.mem_range.mp hx)

theorem findMismatch_first (inA outA : List (List Nat)) {nx ny iy ix : Nat}
    (hy : iy < ny) (hx : ix < nx)
    (hbad : get2 outA iy ix ≠ get2 inA iy ix + (ix + iy))
    (hgood : ∀ iy' < ny, ∀ ix' < nx,
      (iy' < iy ∨ (iy' = iy ∧ ix' < ix)) →
      get2 outA iy' ix' = get2 inA iy' ix' + (ix' + iy')) :
    findMismatch inA outA nx ny
      = some (ix, iy, get2 outA iy ix, get2 inA iy ix) := by
  unfold findMismatch
  rw [show ny = iy + (ny - iy) from by omega, List.range_add,
    List.findSome?_append]
  have h1 : (List.range iy).findSome?
      (fun iy' => (List.range nx).findSome?
        fun ix' => checkCell inA outA iy' ix') = none := by
    rw [List.findSome?_eq_none_iff]
    intro iy' hmem
    rw [List.findSome?_eq_none_iff]
    intro ix' hmem'
    rw [checkCell_eq_none]
    exact hgood iy' (by have := List.mem_range.mp hmem; omega) ix'
      (List.mem_range.mp hmem') (Or.inl (List.mem_range.mp hmem))
  have hrow := row_findSome_first inA outA iy hx hbad
    (fun ix' hix' => hgood iy hy ix' (by omega) (Or.inr ⟨rfl, hix'⟩))
  have h2 : ((List.range (ny - iy)).map (iy + ·)).findSome?
      (fun iy' => (List.range nx).findSome?
        fun ix' => checkCell inA outA iy' ix')
      = some (ix, iy, get2 outA iy ix, get2 inA iy ix) := by
    obtain ⟨k, hk⟩ : ∃ k, ny - iy = k + 1 := ⟨ny - iy - 1, by omega⟩
    rw [hk, List.range_succ_eq_map, List.map_cons]
    simp only [Nat.add_zero]
    simp only [List.findSome?_cons, hrow]
  rw [h1, h2]
  rfl

/-- C3: the verification pass scans in row-major order; at the first
mismatching cell it prints exactly one diagnostic line carrying that
cell's indices and both observed values and stops scanning (so at most
one line is ever printed, even if later cells are also wrong); with no
mismatch it prints nothing. -/
theorem claim_C3 (inA outA : List (List Nat)) (nx ny : Nat) :
    (verifyOutput inA outA nx ny).length ≤ 1 ∧
      ((∀ iy < ny, ∀ ix < nx,
          get2 outA iy ix = get2 inA iy ix + (ix + iy)) →
        verifyOutput inA outA nx ny = []) ∧
      (∀ iy < ny, ∀ ix < nx,
        get2 outA iy ix ≠ get2 inA iy ix + (ix + iy) →
        (∀ iy' < ny, ∀ ix' < nx,
          (iy' < iy ∨ (iy' = iy ∧ ix' < ix)) →
          get2 outA iy' ix' = get2 inA iy' ix' + (ix' + iy')) →
        verifyOutput inA outA nx ny =
          [errorLine ix iy (get2 outA iy ix) (get2 inA iy ix)]) := by
  refine ⟨?_, ?_, ?_⟩
  · unfold verifyOutput
    rcases findMismatch inA outA nx ny with _ | ⟨ix, iy, o, i⟩
    · simp [mismatchLines]
    · simp [mismatchLines]
  · intro hgood
    unfold verifyOutput
    rw [findMismatch_none hgood]
    rfl
  · intro iy hy ix hx hbad hgood
    unfold verifyOutput
    rw [findMismatch_first inA outA hy hx hbad hgood]
    rfl

/-- Witness for C3: input `initInput 3 2` with output corrupted at cells
`(1,1)` and `(1,2)`; exactly the one line for `(iy, ix) = (1, 1)` is
printed. -/
theorem claim_C3_witness :
    get2 [[5, 5, 5], [5, 0, 0]] 1 1 ≠ get2 (initInput 3 2) 1 1 + (1 + 1) ∧
      verifyOutput (initInput 3 2) [[5, 5, 5], [5, 0, 0]] 3 2 =
        [errorLine 1 1 (get2 [[5, 5, 5], [5, 0, 0]] 1 1)
          (get2 (initInput 3 2) 1 1)] :=
  ⟨by decide,
    (claim_C3 (initInput 3 2) [[5, 5, 5], [5, 0, 0]] 3 2).2.2 1 (by decide)
      1 (by decide) (by decide) (by decide)⟩

/-- C7: when `nx = 0` or `ny = 0`, both arrays contain no elements,
initialization writes nothing (the input array stays equal to the zero
array), the scan visits no cell, and verification — after any number of
kernel calls — compares nothing, prints nothing, and completes without
error. -/
theorem claim_C7 {nx ny : Nat} (h : nx = 0 ∨ ny = 0) :
    (zeros nx ny).flatten = [] ∧
      (initInput nx ny).flatten = [] ∧
      initInput nx ny = zeros nx ny ∧
      cells ny nx = [] ∧
      ∀ nrpt,
        findMismatch (initInput nx ny)
            (repeatLoop (initInput nx ny) nx ny (zeros nx ny) nrpt) nx ny
          = none ∧
        verifyOutput (initInput nx ny)
            (repeatLoop (initInput nx ny) nx ny (zeros nx ny) nrpt) nx ny
          = [] ∧
        scanCells? (initInput nx ny)
            (repeatLoop (initInput nx ny) nx ny (zeros nx ny) nrpt)
            (cells ny nx)
          = some none := by
  have hz : (zeros nx ny).flatten = [] := by
    rcases h with h | h <;>
      simp [zeros, h, List.flatten_eq_nil_iff, List.eq_of_mem_replicate]
  have hinit : initInput nx ny = zeros nx ny := by
    rw [initInput_eq]
    rcases h with h | h
    · subst h
      unfold gridOf zeros
      rw [List.eq_replicate_iff]
      simp
    · subst h
      simp [gridOf, zeros]
  have hcells : cells ny nx = [] := by
    rcases h with h | h
    · subst h
      unfold cells
      rw [List.flatMap_eq_nil_iff]
      simp
    · subst h
      simp [cells]
  refine ⟨hz, by rw [hinit]; exact hz, hinit, hcells, fun nrpt => ?_⟩
  have hnone : findMismatch (initInput nx ny)
      (repeatLoop (initInput nx ny) nx ny (zeros nx ny) nrpt) nx ny
      = none := by
    apply findMismatch_none
    intro iy hy ix hx
    rcases h with h | h <;> omega
  refine ⟨hnone, ?_, ?_⟩
  · unfold verifyOutput
    rw [hnone]
    rfl
  · rw [hcells]
    rfl

/-- Witness for C7 at `nx = 0`, `ny = 5`, `nrpt = 7`. -/
theorem claim_C7_witness :
    ((0 : Nat) = 0 ∨ (5 : Nat) = 0) ∧
      (initInput 0 5).flatten = [] ∧
      verifyOutput (initInput 0 5)
          (repeatLoop (initInput 0 5) 0 5 (zeros 0 5) 7) 0 5 = [] :=
  ⟨Or.inl rfl, (claim_C7 (Or.inl rfl)).2.1,
    ((claim_C7 (Or.inl rfl)).2.2.2.2 7).2.1⟩

/-- C9: with repeat count 0 and both dimensions nonzero, the kernel is
never invoked (the loop body runs zero times), the output array stays all
zeros, and verification reports exactly the mismatch at `ix = 0`,
`iy = 0`, whose expected value `input[0][0] + 0 = nx + ny` is nonzero. -/
theorem claim_C9 {nx ny : Nat} (hx : 0 < nx) (hy : 0 < ny) :
    repeatLoop (initInput nx ny) nx ny (zeros nx ny) 0 = zeros nx ny ∧
      get2 (zeros nx ny) 0 0 = 0 ∧
      0 < get2 (initInput nx ny) 0 0 + (0 + 0) ∧
      findMismatch (initInput nx ny) (zeros nx ny) nx ny
        = some (0, 0, 0, nx + ny) ∧
      verifyOutput (initInput nx ny) (zeros nx ny) nx ny
        = [errorLine 0 0 0 (nx + ny)] := by
  have hin : get2 (initInput nx ny) 0 0 = nx + ny := by
    rw [get2_initInput hy hx]
    omega
  have hbad : get2 (zeros nx ny) 0 0 ≠ get2 (initInput nx ny) 0 0 + (0 + 0) := by
    rw [get2_zeros, hin]
    omega
  have hfm := findMismatch_first (initInput nx ny) (zeros nx ny) hy hx hbad
    (fun iy' _ ix' _ hlt => by omega)
  rw [get2_zeros, hin] at hfm
  refine ⟨rfl, get2_zeros nx ny 0 0, by rw [hin]; omega, hfm, ?_⟩
  unfold verifyOutput
  rw [hfm]
  rfl

/-- Witness for C9 at `nx = 3`, `ny = 2`. -/
theorem claim_C9_witness :
    (0 : Nat) < 3 ∧ (0 : Nat) < 2 ∧
      findMismatch (initInput 3 2) (zeros 3 2) 3 2 = some (0, 0, 0, 3 + 2) ∧
      verifyOutput (initInput 3 2) (zeros 3 2) 3 2 =
        [errorLine 0 0 0 (3 + 2)] :=
  ⟨by decide, by decide, (claim_C9 (by decide) (by decide)).2.2.2.1,
    (claim_C9 (by decide) (by decide)).2.2.2.2⟩

/-! ### The checked run: absence of panics -/

theorem foldlM_eq_some {α β : Type} {g : α → β → Option α} {f : α → β → α}
    {P : α → Prop} :
    ∀ (l : List β) (a : α), P a →
      (∀ acc b, P acc → b ∈ l → g acc b = some (f acc b) ∧ P (f acc b)) →
      l.foldlM g a = some (l.foldl f a)
  | [], _, _, _ => rfl
  | b :: l, a, hP, hstep => by
    have h1 := hstep a b hP (List.mem_cons_self b l)
    rw [List.foldlM_cons, h1.1]
    show l.foldlM g (f a b) = some (l.foldl f (f a b))
    exact foldlM_eq_some l (f a b) h1.2
      (fun acc c hPc hc => hstep acc c hPc (List.mem_cons_of_mem b hc))

theorem foldl_preserves {α β : Type} {f : α → β → α} {P : α → Prop} :
    ∀ (l : List β) (a : α), P a →
      (∀ acc b, P acc → b ∈ l → P (f acc b)) → P (l.foldl f a)
  | [], _, hP, _ => hP
  | b :: l, a, hP, hstep => by
    rw [List.foldl_cons]
    exact foldl_preserves l (f a b) (hstep a b hP (List.mem_cons_self b l))
      (fun acc c hPc hc => hstep acc c hPc (List.mem_cons_of_mem b hc))

theorem shape_writeCell {a : List (List Nat)} {ny nx iy ix v : Nat}
    (hs : Shape a ny nx) (hy : iy < ny) :
    Shape (writeCell a iy ix v) ny nx := by
  obtain ⟨h1, h2⟩ := hs
  have hylen : iy < a.length := by omega
  have hAmem : a.getD iy [] ∈ a := by
    simp only [List.getD_eq_getElem?_getD, List.getElem?_eq_getElem hylen,
      Option.getD_some]
    exact List.getElem_mem hylen
  refine ⟨by simp [writeCell, h1], ?_⟩
  intro row hrow
  rcases List.mem_or_eq_of_mem_set hrow with hmem | rfl
  · exact h2 _ hmem
  · rw [List.length_set]
    exact h2 _ hAmem

theorem set2?_eq_writeCell {a : List (List Nat)} {ny nx iy ix v : Nat}
    (hs : Shape a ny nx) (hy : iy < ny) (hx : ix < nx) :
    set2? a iy ix v = some (writeCell a iy ix v) := by
  obtain ⟨h1, h2⟩ := hs
  have hylen : iy < a.length := by omega
  have hrow : a.getD iy [] = a[iy] := by
    simp [List.getD_eq_getElem?_getD, List.getElem?_eq_getElem hylen]
  have hxlen : ix < (a[iy]).length := by
    rw [h2 _ (List.getElem_mem hylen)]
    exact hx
  unfold set2? writeCell
  rw [List.getElem?_eq_getElem hylen]
  show (if ix < (a[iy]).length then
      some (a.set iy ((a[iy]).set ix v)) else none)
    = some (a.set iy ((a.getD iy []).set ix v))
  rw [if_pos hxlen, hrow]

theorem get2?_eq {a : List (List Nat)} {ny nx iy ix : Nat}
    (hs : Shape a ny nx) (hy : iy < ny) (hx : ix < nx) :
    get2? a iy ix = some (get2 a iy ix) := by
  obtain ⟨h1, h2⟩ := hs
  have hylen : iy < a.length := by omega
  have e1 : a.getD iy [] = a[iy] := by
    simp [List.getD_eq_getElem?_getD, List.getElem?_eq_getElem hylen]
  have hxlen : ix < (a[iy]).length := by
    rw [h2 _ (List.getElem_mem hylen)]
    exact hx
  unfold get2? get2
  rw [List.getElem?_eq_getElem hylen, Option.some_bind, e1]
  rw [List.getElem?_eq_getElem hxlen]
  simp [List.getD_eq_getElem?_getD, List.getElem?_eq_getElem hxlen]

theorem initInput?_eq (nx ny : Nat) :
    initInput? nx ny = some (initInput nx ny) := by
  unfold initInput? initInput gridWrite
  apply foldlM_eq_some (P := fun a => Shape a ny nx) _ _ (shape_zeros nx ny)
  intro acc iy hP hiy
  have hiy' : iy < ny := List.mem_range.mp hiy
  constructor
  · apply foldlM_eq_some (P := fun a => Shape a ny nx) _ _ hP
    intro acc2 ix hP2 hix
    have hix' : ix < nx := List.mem_range.mp hix
    constructor
    · rw [seedVal?_eq hiy' hix', Option.some_bind]
      exact set2?_eq_writeCell hP2 hiy' hix'
    · exact shape_writeCell hP2 hiy'
  · apply foldl_preserves (P := fun a => Shape a ny nx) _ _ hP
    intro acc2 ix hP2 _
    exact shape_writeCell hP2 hiy'

theorem mem_cells {ny nx : Nat} {c : Nat × Nat} (h : c ∈ cells ny nx) :
    c.1 < ny ∧ c.2 < nx := by
  unfold cells at h
  simp only [List.mem_flatMap, List.mem_map, List.mem_range] at h
  obtain ⟨iy, hiy, ix, hix, rfl⟩ := h
  exact ⟨hiy, hix⟩

theorem scanCells?_eq {inA outA : List (List Nat)} {ny nx : Nat}
    (hin : Shape inA ny nx) (hout : Shape outA ny nx) :
    ∀ l : List (Nat × Nat), (∀ c ∈ l, c.1 < ny ∧ c.2 < nx) →
      scanCells? inA outA l
        = some (l.findSome? fun c => checkCell inA outA c.1 c.2)
  | [], _ => rfl
  | c :: rest, hmem => by
    obtain ⟨hc1, hc2⟩ := hmem c (List.mem_cons_self c rest)
    unfold scanCells?
    rw [get2?_eq hout hc1 hc2, Option.some_bind, get2?_eq hin hc1 hc2,
      Option.some_bind]
    by_cases hb : get2 outA c.1 c.2 ≠ get2 inA c.1 c.2 + (c.2 + c.1)
    · rw [if_pos hb]
      simp only [List.findSome?_cons, checkCell_eq_some hb]
    · rw [if_neg hb]
      have heq : get2 outA c.1 c.2 = get2 inA c.1 c.2 + (c.2 + c.1) :=
        Decidable.of_not_not hb
      simp only [List.findSome?_cons, checkCell_eq_none.mpr heq]
      exact scanCells?_eq hin hout rest
        (fun c' hc' => hmem c' (List.mem_cons_of_mem c hc'))

theorem findSome?_flatMap {α β γ : Type} (f : β → Option γ) (g : α → List β) :
    ∀ l : List α,
      (l.flatMap g).findSome? f = l.findSome? fun a => (g a).findSome? f
  | [] => rfl
  | a :: l => by
    rw [List.flatMap_cons, List.findSome?_append, findSome?_flatMap f g l]
    cases h : (g a).findSome? f with
    | none => simp [List.findSome?_cons, h]
    | some b => simp [List.findSome?_cons, h]

theorem findMismatch_eq_cells (inA outA : List (List Nat)) (nx ny : Nat) :
    findMismatch inA outA nx ny
      = (cells ny nx).findSome? fun c => checkCell inA outA c.1 c.2 := by
  unfold findMismatch cells
  rw [findSome?_flatMap]
  congr 1
  funext iy
  rw [List.findSome?_map]
  rfl

theorem shape_finalOut (c : Config) : Shape (finalOut c) c.ny c.nx :=
  shape_repeatLoop _ _ _ (shape_zeros c.nx c.ny) c.nrpt

/-- C8: for every command-line input the modelled run terminates normally
— no panic occurs anywhere in `main`, so the checked run agrees with the
total one — and the process exit status is success; a verification
mismatch shows up only in the printed diagnostics, never in the exit
code. -/
theorem claim_C8 (args : List (Option Nat)) :
    runMain? args = some (runMain args) ∧ exitCode args = 0 := by
  have h1 : runMain? args = some (runMain args) := by
    unfold runMain? runMain
    rw [initInput?_eq, Option.some_bind]
    rw [scanCells?_eq (shape_initInput (resolveArgs args).1.nx
        (resolveArgs args).1.ny)
      (shape_repeatLoop _ _ _ (shape_zeros (resolveArgs args).1.nx
        (resolveArgs args).1.ny) (resolveArgs args).1.nrpt)
      _ (fun c hc => mem_cells hc)]
    rw [Option.map_some', ← findMismatch_eq_cells]
    rfl
  refine ⟨h1, ?_⟩
  unfold exitCode
  rw [h1]

/-! ### Argument resolution -/

theorem resolveArgs_nil : resolveArgs [] = (⟨100000, 10, 2000⟩, []) := rfl

theorem resolveArgs_one (a0 : Option Nat) :
    resolveArgs [a0] = (⟨100000, 10, 2000⟩, []) := rfl

theorem resolveArgs_pair (a0 v1 : Option Nat) :
    resolveArgs [a0, v1] =
      (⟨(parseSlot v1 100000 "Repeats invalid, using ").1, 10, 2000⟩,
        (parseSlot v1 100000 "Repeats invalid, using ").2) := rfl

theorem resolveArgs_triple (a0 v1 v2 : Option Nat) :
    resolveArgs [a0, v1, v2] =
      (⟨(parseSlot v1 100000 "Repeats invalid, using ").1,
          (parseSlot v2 10 "Rows invalid, using ").1, 2000⟩,
        (parseSlot v1 100000 "Repeats invalid, using ").2 ++
          (parseSlot v2 10 "Rows invalid, using ").2) := rfl

theorem resolveArgs_full (a0 v1 v2 v3 : Option Nat)
    (rest : List (Option Nat)) :
    resolveArgs (a0 :: v1 :: v2 :: v3 :: rest) =
      (⟨(parseSlot v1 100000 "Repeats invalid, using ").1,
          (parseSlot v2 10 "Rows invalid, using ").1,
          (parseSlot v3 2000 "Columns invalid, using ").1⟩,
        (parseSlot v1 100000 "Repeats invalid, using ").2 ++
          (parseSlot v2 10 "Rows invalid, using ").2 ++
          (parseSlot v3 2000 "Columns invalid, using ").2) := by
  unfold resolveArgs
  rw [if_pos (by simp), if_pos (by simp), if_pos (by simp)]
  rfl

theorem repeatsMsg_eq :
    "Repeats invalid, using " ++ toString 100000
      = "Repeats invalid, using 100000" := rfl

theorem rowsMsg_eq :
    "Rows invalid, using " ++ toString 10 = "Rows invalid, using 10" := rfl

theorem colsMsg_eq :
    "Columns invalid, using " ++ toString 2000
      = "Columns invalid, using 2000" := rfl

/-- C4: each of the up-to-three positional arguments, when present and
parsed as a nonnegative integer, overrides its default (`nrpt = 100000`,
`ny = 10`, `nx = 2000`); when present but unparsable, a one-line
diagnostic naming the field and its default is printed and the default is
retained; when absent, the default is retained. -/
theorem claim_C4 (args : List (Option Nat)) :
    (∀ n, args[1]? = some (some n) → (resolveArgs args).1.nrpt = n) ∧
      (args[1]? = some none →
        (resolveArgs args).1.nrpt = 100000 ∧
          "Repeats invalid, using 100000" ∈ (resolveArgs args).2) ∧
      (args[1]? = none → (resolveArgs args).1.nrpt = 100000) ∧
      (∀ n, args[2]? = some (some n) → (resolveArgs args).1.ny = n) ∧
      (args[2]? = some none →
        (resolveArgs args).1.ny = 10 ∧
          "Rows invalid, using 10" ∈ (resolveArgs args).2) ∧
      (args[2]? = none → (resolveArgs args).1.ny = 10) ∧
      (∀ n, args[3]? = some (some n) → (resolveArgs args).1.nx = n) ∧
      (args[3]? = some none →
        (resolveArgs args).1.nx = 2000 ∧
          "Columns invalid, using 2000" ∈ (resolveArgs args).2) ∧
      (args[3]? = none → (resolveArgs args).1.nx = 2000) := by
  rcases args with _ | ⟨a0, _ | ⟨a1, _ | ⟨a2, _ | ⟨a3, rest⟩⟩⟩⟩ <;>
    refine ⟨fun n h => ?_, fun h => ?_, fun h => ?_, fun n h => ?_,
      fun h => ?_, fun h => ?_, fun n h => ?_, fun h => ?_, fun h => ?_⟩ <;>
    simp_all [resolveArgs_nil, resolveArgs_one, resolveArgs_pair,
      resolveArgs_triple, resolveArgs_full, parseSlot, repeatsMsg_eq,
      rowsMsg_eq, colsMsg_eq]

/-- Witness for C4: third argument present and valid overrides `ny`;
second slot present but invalid keeps `nrpt = 100000` and prints the
diagnostic. -/
theorem claim_C4_witness :
    (([none, none, some 7] : List (Option Nat))[2]? = some (some 7) ∧
        (resolveArgs [none, none, some 7]).1.ny = 7) ∧
      ([none, none] : List (Option Nat))[1]? = some none ∧
        (resolveArgs [none, none]).1.nrpt = 100000 ∧
        "Repeats invalid, using 100000" ∈ (resolveArgs [none, none]).2 :=
  ⟨⟨rfl, (claim_C4 [none, none, some 7]).2.2.2.1 7 rfl⟩,
    rfl, (claim_C4 [none, none]).2.1 rfl⟩

/-- C5: resolution is positional and order-dependent — arguments beyond
the third are ignored; a later field's resolution never depends on the
parsed value (validity) of an earlier present argument, only on slot
presence; a slot can be present only when all earlier slots are present;
and an absent slot leaves its field (and all later ones) at the
default. -/
theorem claim_C5 :
    (∀ args : List (Option Nat), resolveArgs args = resolveArgs (args.take 4)) ∧
      (∀ (a0 v1 v1' : Option Nat) (rest : List (Option Nat)),
        (resolveArgs (a0 :: v1 :: rest)).1.ny
            = (resolveArgs (a0 :: v1' :: rest)).1.ny ∧
          (resolveArgs (a0 :: v1 :: rest)).1.nx
            = (resolveArgs (a0 :: v1' :: rest)).1.nx) ∧
      (∀ (a0 v1 v2 v2' : Option Nat) (rest : List (Option Nat)),
        (resolveArgs (a0 :: v1 :: v2 :: rest)).1.nrpt
            = (resolveArgs (a0 :: v1 :: v2' :: rest)).1.nrpt ∧
          (resolveArgs (a0 :: v1 :: v2 :: rest)).1.nx
            = (resolveArgs (a0 :: v1 :: v2' :: rest)).1.nx) ∧
      (∀ args : List (Option Nat), args.length ≤ 2 →
        (resolveArgs args).1.ny = 10 ∧ (resolveArgs args).1.nx = 2000) ∧
      (∀ args : List (Option Nat), args.length ≤ 3 →
        (resolveArgs args).1.nx = 2000) ∧
      (∀ args : List (Option Nat), 3 < args.length →
        1 < args.length ∧ 2 < args.length) := by
  refine ⟨?_, ?_, ?_, ?_, ?_, fun args h => ⟨by omega, by omega⟩⟩
  · intro args
    rcases args with _ | ⟨a0, _ | ⟨a1, _ | ⟨a2, _ | ⟨a3, rest⟩⟩⟩⟩
    · rfl
    · rfl
    · rfl
    · rfl
    · rw [resolveArgs_full]
      rfl
  · intro a0 v1 v1' rest
    rcases rest with _ | ⟨v2, _ | ⟨v3, rest'⟩⟩ <;>
      simp [resolveArgs_pair, resolveArgs_triple, resolveArgs_full]
  · intro a0 v1 v2 v2' rest
    rcases rest with _ | ⟨v3, rest'⟩ <;>
      simp [resolveArgs_triple, resolveArgs_full]
  · intro args h
    rcases args with _ | ⟨a0, _ | ⟨a1, _ | ⟨a2, _ | ⟨a3, rest⟩⟩⟩⟩
    · exact ⟨rfl, rfl⟩
    · exact ⟨rfl, rfl⟩
    · rw [resolveArgs_pair]
      exact ⟨rfl, rfl⟩
    · simp at h
    · simp at h
  · intro args h
    rcases args with _ | ⟨a0, _ | ⟨a1, _ | ⟨a2, _ | ⟨a3, rest⟩⟩⟩⟩
    · rfl
    · rfl
    · rw [resolveArgs_pair]
    · rw [resolveArgs_triple]
    · simp at h

/-- Witness for C5: ignoring a fifth argument, and the row-count default
with only two argv entries. -/
theorem claim_C5_witness :
    resolveArgs [none, some 1, some 2, some 3, some 4]
        = resolveArgs ([none, some 1, some 2, some 3, some 4].take 4) ∧
      ([none, some 1] : List (Option Nat)).length ≤ 2 ∧
      (resolveArgs [none, some 1]).1.ny = 10 :=
  ⟨claim_C5.1 [none, some 1, some 2, some 3, some 4],
    by decide, (claim_C5.2.2.2.1 [none, some 1] (by decide)).1⟩

end Crs
